import Mathlib

/-!
Verification of the Pulse delta-notification core.

This file gives a shallow embedding, in Lean 4, of the periodic
delta-notification mechanism of the Pulse repository:

* `services/jobs/account_watchers.py` — the `err_disabled` and
  `banned_usernames` watcher jobs;
* `services/jobs/rotom_watchers.py` — the offline-device watcher job;
* `services/appscheduler.py` — the generic periodic task scheduler;
* `utils/datastore.py` — the JSON snapshot store, abstracted to the set of
  string members it persists (`load_json` of the persisted array followed by
  `_to_set` yields exactly that set; `save_json(sorted(s))` persists it).

Identifier sets are modelled as `Finset String`.  External effects are made
explicit parameters: the Discord channel lookup becomes a `channelOk` flag
(the job returns immediately when the configured channel is missing or has
the wrong type), the external fetch becomes a `Fetch` value (`ok rows` for a
successful call, `err` for a call that raises), and the notification sink
becomes a `sinkOk` flag (`false` means `channel.send` raises when invoked).
A tick's observable result is the persisted snapshot after the tick, the
list of notifications actually sent, and whether the job body raised.
The human-readable message text built by `_notify_msg_or_file` is abstracted
to the identifier set the message lists, since no property here depends on
the formatting or on the inline-versus-attachment choice.
-/

namespace Pulse

/-- Python `str.strip()` on a list of characters: drop whitespace from both
ends.  (`Char.isWhitespace` plays the role of Python's whitespace class; the
characters relevant to this development — space, tab, newline — are stripped
by both.) -/
def pyStripList (l : List Char) : List Char :=
  ((l.dropWhile Char.isWhitespace).reverse.dropWhile Char.isWhitespace).reverse

/-- Python `s.strip()` for a string. -/
def pyStrip (s : String) : String :=
  String.mk (pyStripList s.data)

/-- The pure delta law shared by all three watchers (spec §4.2
`compute_delta`): `added = current - previous`, `removed = previous -
current`.  In the source the two set differences are written inline in each
job body (`current_keys - before`, `current - before`,
`current_offline - prev_offline` / `prev_offline - current_offline`). -/
def computeDelta (previous current : Finset String) :
    Finset String × Finset String :=
  (current \ previous, previous \ current)

/-- Outcome of the external identifier fetch: a successful call returning
rows, or a call that raises. -/
inductive Fetch (α : Type) where
  | ok (rows : α)
  | err
deriving DecidableEq, Repr

/-- A notification actually delivered to the channel, abstracted to the
identifier set the message lists. -/
inductive Notification where
  | errDisabled (added : Finset String)
  | banned (added : Finset String)
  | rotomOffline (added : Finset String)
  | rotomRecovered (removed : Finset String)
deriving DecidableEq

/-- Observable result of one watcher tick: the snapshot persisted for the
watcher's key after the tick, the notifications sent during the tick, and
whether the job body raised an exception out of the tick. -/
structure TickResult where
  store : Finset String
  sent : List Notification
  raised : Bool
deriving DecidableEq

/-- One row returned by the `err_disabled` DAO query: a username, the two
method counters (cast to integers by the DAO), and the formatted session
duration string. -/
structure ErrRow where
  username : String
  encounter : Int
  gmo : Int
  sessionDuration : String
deriving DecidableEq, Repr

/-- The composite key `_err_disabled_key` of
`services/jobs/account_watchers.py`:
`f"{u}|{enc}|{gmo}|{dur}"` where `u` and `dur` are stripped and `enc`, `gmo`
are rendered by Python's `str` (here `toString` on `Int`, which produces the
same decimal text). -/
def errDisabledKey (r : ErrRow) : String :=
  pyStrip r.username ++ "|" ++ toString r.encounter ++ "|" ++ toString r.gmo
    ++ "|" ++ pyStrip r.sessionDuration

/-- The current composite-key set built by the `err_disabled` job:
`{_err_disabled_key(r) for r in rows}`. -/
def errDisabledCurrent (rows : List ErrRow) : Finset String :=
  (rows.map errDisabledKey).toFinset

/-- One tick of the `err_disabled` watcher job
(`make_err_disabled_job.job`).  Mirrors the source control flow: bail out if
the notify channel is missing; fetch (an exception propagates — there is no
`try` around the DAO call); diff against the loaded snapshot; persist the
current set whenever it differs from the previous one (before any
notification); return if nothing is new; otherwise send one notification
(an exception from the sink propagates, after the store was written). -/
def errDisabledTick (channelOk : Bool) (fetch : Fetch (List ErrRow))
    (sinkOk : Bool) (store : Finset String) : TickResult :=
  if channelOk = false then ⟨store, [], false⟩ else
  match fetch with
  | .err => ⟨store, [], true⟩
  | .ok rows =>
    let currentKeys := errDisabledCurrent rows
    let newKeys := currentKeys \ store
    let store1 := if store = currentKeys then store else currentKeys
    if newKeys = ∅ then ⟨store1, [], false⟩
    else if sinkOk then ⟨store1, [.errDisabled newKeys], false⟩
    else ⟨store1, [], true⟩

/-- The current username set built by the `banned_usernames` job:
`{str(u).strip() for u in rows if str(u).strip()}` — strip each name and
keep the non-empty ones. -/
def bannedCurrent (rows : List String) : Finset String :=
  ((rows.map pyStrip).filter (fun u => u ≠ "")).toFinset

/-- One tick of the `banned_usernames` watcher job
(`make_banned_usernames_job.job`).  Same shape as `errDisabledTick`: no
`try` around the fetch, snapshot persisted before the notification is
attempted. -/
def bannedTick (channelOk : Bool) (fetch : Fetch (List String))
    (sinkOk : Bool) (store : Finset String) : TickResult :=
  if channelOk = false then ⟨store, [], false⟩ else
  match fetch with
  | .err => ⟨store, [], true⟩
  | .ok rows =>
    let current := bannedCurrent rows
    let newNames := current \ store
    let store1 := if store = current then store else current
    if newNames = ∅ then ⟨store1, [], false⟩
    else if sinkOk then ⟨store1, [.banned newNames], false⟩
    else ⟨store1, [], true⟩

/-- One row of `status_devices_last_seen`: a device identifier and its
last-seen timestamp in milliseconds (`none` when the row carries no usable
timestamp; Python's `int(r.get("lastTs") or 0)` maps such a row to `0`). -/
structure DeviceRow where
  deviceId : String
  lastTs : Option Int
deriving DecidableEq, Repr

/-- Assignment `m[k] = v` on a Python dict modelled as an association list:
replace the value of an existing key in place, otherwise append the new
binding. -/
def dictSet (m : List (String × Int)) (k : String) (v : Int) :
    List (String × Int) :=
  if m.any (fun p => decide (p.1 = k)) then
    m.map (fun p => if p.1 = k then (k, v) else p)
  else m ++ [(k, v)]

/-- The `last_seen` dict comprehension of the rotom job:
`{str(r.get("deviceId")).strip(): int(r.get("lastTs") or 0) for r in rows
if r.get("deviceId")}` — rows with a falsy (empty) device id are skipped,
ids are stripped, a missing timestamp becomes `0`, and a later row for the
same key overwrites an earlier one. -/
def buildLastSeen (rows : List DeviceRow) : List (String × Int) :=
  rows.foldl
    (fun m r =>
      if r.deviceId = "" then m
      else dictSet m (pyStrip r.deviceId) (r.lastTs.getD 0))
    []

/-- Dict lookup on the association-list model. -/
def lookupTs (m : List (String × Int)) (k : String) : Option Int :=
  (m.find? (fun p => decide (p.1 = k))).map (fun p => p.2)

/-- The `_is_offline` closure of `make_rotom_offline_watch_job.job`: a
device is offline when its timestamp is unknown or non-positive, or older
than the threshold. -/
def isOffline (nowMs thrMs ts : Int) : Bool :=
  ts ≤ 0 || nowMs - ts > thrMs

/-- The `current_offline` set: devices of the `last_seen` dict whose
timestamp is classified offline. -/
def currentOffline (nowMs thrMs : Int) (m : List (String × Int)) :
    Finset String :=
  ((m.filter (fun p => isOffline nowMs thrMs p.2)).map (fun p => p.1)).toFinset

/-- One tick of the rotom offline-device watcher
(`make_rotom_offline_watch_job.job`).  Mirrors the source control flow:
bail out if the notify channel is missing; the fetch and normalisation are
wrapped in `try`, so a fetch failure is logged and the tick returns
normally with the store untouched; then the offline set is diffed against
the loaded snapshot, the newly-offline and recovered notifications are sent
(an exception from the sink propagates immediately), and only after both
sends does `save_json` persist the current offline set. -/
def rotomTick (channelOk : Bool) (nowMs thrS : Int)
    (fetch : Fetch (List DeviceRow)) (sinkOk : Bool)
    (store : Finset String) : TickResult :=
  if channelOk = false then ⟨store, [], false⟩ else
  match fetch with
  | .err => ⟨store, [], false⟩
  | .ok rows =>
    let lastSeen := buildLastSeen rows
    let thrMs := thrS * 1000
    let cur := currentOffline nowMs thrMs lastSeen
    let newly := cur \ store
    let recov := store \ cur
    if newly = ∅ then
      if recov = ∅ then ⟨cur, [], false⟩
      else if sinkOk then ⟨cur, [.rotomRecovered recov], false⟩
      else ⟨store, [], true⟩
    else if sinkOk then
      if recov = ∅ then ⟨cur, [.rotomOffline newly], false⟩
      else ⟨cur, [.rotomOffline newly, .rotomRecovered recov], false⟩
    else ⟨store, [], true⟩

/-! ### The periodic task scheduler (`services/appscheduler.py`) -/

/-- A per-job `asyncio.Task` as far as the scheduler's bookkeeping observes
it: an identity (to tell a fresh task from an old one) and whether
`task.done()` holds. -/
structure SchedTask where
  id : Nat
  done : Bool
deriving DecidableEq, Repr

/-- The scheduler state: the `_tasks` dict (name to task, modelled as an
association list with distinct keys, insertion-ordered like a Python dict)
and the `_stopped` event. -/
structure SchedState where
  tasks : List (String × SchedTask)
  stopped : Bool
deriving DecidableEq, Repr

/-- Lookup of `_tasks[name]`. -/
def lookupTask (ts : List (String × SchedTask)) (n : String) :
    Option SchedTask :=
  (ts.find? (fun p => decide (p.1 = n))).map (fun p => p.2)

/-- Assignment `_tasks[name] = task` on the dict model. -/
def setTask (ts : List (String × SchedTask)) (n : String) (t : SchedTask) :
    List (String × SchedTask) :=
  if ts.any (fun p => decide (p.1 = n)) then
    ts.map (fun p => if p.1 = n then (n, t) else p)
  else ts ++ [(n, t)]

/-- `AppScheduler.every`: when `name` is registered and its task is not
done, warn and return (the state is unchanged); otherwise store a freshly
created task under `name`. -/
def every (st : SchedState) (name : String) (newTask : SchedTask) :
    SchedState :=
  match lookupTask st.tasks name with
  | some t => if t.done = false then st
              else { st with tasks := setTask st.tasks name newTask }
  | none => { st with tasks := setTask st.tasks name newTask }

/-- The names whose tasks `stop` cancels: every registered task with
`task.done()` false. -/
def cancelledNames (ts : List (String × SchedTask)) : List String :=
  (ts.filter (fun p => p.2.done = false)).map (fun p => p.1)

/-- `AppScheduler.stop`: set the `_stopped` event, cancel every unfinished
task, await all tasks swallowing `CancelledError` (and any other
exception), and clear the registry.  The function returns the new state
together with the names of the tasks it cancelled; it is total — no path
raises. -/
def stop (st : SchedState) : SchedState × List String :=
  ({ tasks := [], stopped := true }, cancelledNames st.tasks)

/-- Outcome of running a job body once inside `_run_loop`'s `try`. -/
inductive TickOutcome where
  | ok
  | exc (code : Nat)
  | cancelled
deriving DecidableEq, Repr

/-- How a per-job loop run ends. -/
inductive LoopEnd where
  | running
  | stoppedClean
  | cancelledEnd
deriving DecidableEq, Repr

/-- One round of the steady-state `while` loop of `AppScheduler._run_loop`:
whether the `_stopped` event is set when the loop condition is checked, and
the outcome the job body would have if the tick runs. -/
structure Round where
  stopSet : Bool
  outcome : TickOutcome
deriving DecidableEq, Repr

/-- The steady-state `while not self._stopped.is_set()` loop of
`AppScheduler._run_loop`, consuming a schedule of rounds.  Each round first
checks the stop event (and likewise a stop observed during the inter-tick
wait ends the loop before the next tick); a tick that raises
`CancelledError` is re-raised and ends the loop; a tick that raises any
other exception is caught by the inner `except Exception` and logged, and
the loop proceeds exactly as after a successful tick.  The result is the
number of ticks attempted and how the loop ended (`running` when the
schedule is exhausted with the loop still alive). -/
def runLoop : List Round → Nat × LoopEnd
  | [] => (0, .running)
  | r :: rest =>
    if r.stopSet then (0, .stoppedClean)
    else match r.outcome with
      | .cancelled => (1, .cancelledEnd)
      | _ => ((runLoop rest).1 + 1, (runLoop rest).2)

/-! ### Claim C1: the pure delta law -/

/-- C1: for all finite sets `P` (previous) and `C` (current) of strings, the
delta a watcher tick computes is `added = C - P`, `removed = P - C`; the two
are disjoint; and `P = C` yields two empty sets.  Determinism is immediate
since `computeDelta` is a function of `(P, C)` alone. -/
theorem claim_C1_delta_law (P C : Finset String) :
    computeDelta P C = (C \ P, P \ C)
    ∧ Disjoint (computeDelta P C).1 (computeDelta P C).2
    ∧ computeDelta P P = (∅, ∅) := by
  refine ⟨rfl, ?_, ?_⟩
  · have hd : Disjoint (C \ P) (P \ C) := by
      rw [Finset.disjoint_left]
      intro a ha hb
      exact (Finset.mem_sdiff.mp ha).2 (Finset.mem_sdiff.mp hb).1
    simpa [computeDelta] using hd
  · simp [computeDelta]

/-! ### Claim C3: fetch failure leaves the tick without effect -/

/-- C3: when the external fetch raises, every watcher tick leaves the
persisted snapshot exactly as it was and sends no notification (the account
watchers let the exception propagate before any store access; the rotom
watcher catches it and returns). -/
theorem claim_C3_fetch_failure_atomic (ch sinkOk : Bool) (s : Finset String)
    (nowMs thrS : Int) :
    (errDisabledTick ch .err sinkOk s).store = s
    ∧ (errDisabledTick ch .err sinkOk s).sent = []
    ∧ (bannedTick ch .err sinkOk s).store = s
    ∧ (bannedTick ch .err sinkOk s).sent = []
    ∧ (rotomTick ch nowMs thrS .err sinkOk s).store = s
    ∧ (rotomTick ch nowMs thrS .err sinkOk s).sent = [] := by
  cases ch <;> simp [errDisabledTick, bannedTick, rotomTick]

/-! ### Claim C7: at most one live task per job name -/

/-- C7: calling `every(name, ...)` while a not-yet-finished task is
registered under `name` leaves the task registry unchanged, so the
previously registered task is still the unique task for that name. -/
theorem claim_C7_single_instance (st : SchedState) (name : String)
    (t newTask : SchedTask) (h : lookupTask st.tasks name = some t)
    (hlive : t.done = false) :
    every st name newTask = st
    ∧ lookupTask (every st name newTask).tasks name = some t := by
  have he : every st name newTask = st := by
    simp [every, h, hlive]
  exact ⟨he, by rw [he, h]⟩

/-- Concrete instance of C7: a scheduler holding one live task named `a`
ignores a second registration under `a`. -/
theorem claim_C7_witness :
    every ⟨[("a", ⟨1, false⟩)], false⟩ "a" ⟨2, false⟩
      = (⟨[("a", ⟨1, false⟩)], false⟩ : SchedState) :=
  (claim_C7_single_instance ⟨[("a", ⟨1, false⟩)], false⟩ "a" ⟨1, false⟩
    ⟨2, false⟩ (by decide) rfl).1

/-! ### Claim C8: a job-body exception never ends the per-job loop -/

/-- C8: in the scheduler's per-job loop, a tick that raises an ordinary
exception is caught and logged and the loop proceeds exactly as after a
successful tick; only a tick cancelled by `stop` ends the loop, with the
cancellation propagating. -/
theorem claim_C8_job_failure_isolated (code : Nat) (rest : List Round) :
    runLoop ({ stopSet := false, outcome := .exc code } :: rest)
      = ((runLoop rest).1 + 1, (runLoop rest).2)
    ∧ runLoop ({ stopSet := false, outcome := .ok } :: rest)
      = ((runLoop rest).1 + 1, (runLoop rest).2)
    ∧ runLoop ({ stopSet := false, outcome := .cancelled } :: rest)
      = (1, .cancelledEnd) := by
  refine ⟨?_, ?_, ?_⟩ <;> simp [runLoop]

/-! ### Claim C9: stop sets the signal, cancels, clears, and is idempotent -/

/-- C9: `stop()` sets the global stop signal, cancels exactly the
unfinished tasks, and leaves the registry empty; a second call (and a call
on a scheduler that never started a job) returns normally and cancels
nothing; and once the stop signal is set, a job loop takes no further tick.
-/
theorem claim_C9_stop_correct (st : SchedState) (o : TickOutcome)
    (rest : List Round) :
    (stop st).1.tasks = []
    ∧ (stop st).1.stopped = true
    ∧ (stop st).2 = cancelledNames st.tasks
    ∧ stop (stop st).1 = ((stop st).1, [])
    ∧ stop ⟨[], false⟩ = (⟨[], true⟩, [])
    ∧ runLoop ({ stopSet := true, outcome := o } :: rest)
      = (0, .stoppedClean) := by
  refine ⟨rfl, rfl, rfl, rfl, rfl, ?_⟩
  simp [runLoop]

/-! ### Counterexamples: rotom persists only after notification succeeds -/

/-- Counterexample to C2 as stated: a rotom tick whose fetch succeeds with
one online device (current offline set `∅`) but whose previous snapshot is
`{"g"}` attempts a "recovered" notification; when the sink raises, the tick
aborts before `save_json`, so the store still holds `{"g"}`, a strict
superset of the last successful observation `∅`. -/
theorem claim_C2_cex :
    (rotomTick true 1000 1 (.ok [⟨"d", some 1000⟩]) false {"g"}).store = {"g"}
    ∧ currentOffline 1000 (1 * 1000) (buildLastSeen [⟨"d", some 1000⟩]) = ∅
    ∧ ({"g"} : Finset String) ≠ (∅ : Finset String) := by
  refine ⟨?_, ?_, ?_⟩ <;> decide

/-- Counterexample to C4 as stated: a rotom tick with a non-empty delta
(device `d` newly offline) whose notification send raises does not persist
the new current set — the store stays `∅` instead of becoming `{"d"}`. -/
theorem claim_C4_cex :
    (rotomTick true 2000 1 (.ok [⟨"d", some 0⟩]) false ∅).store = ∅
    ∧ (rotomTick true 2000 1 (.ok [⟨"d", some 0⟩]) false ∅).raised = true
    ∧ currentOffline 2000 (1 * 1000) (buildLastSeen [⟨"d", some 0⟩]) = {"d"}
    ∧ (∅ : Finset String) ≠ ({"d"} : Finset String) := by
  refine ⟨?_, ?_, ?_, ?_⟩ <;> decide

/-- Counterexample to C5 as stated: the account watcher job bodies contain
no exception handler, so a fetch failure raises out of the tick (it is the
scheduler's loop, not the job, that catches it). -/
theorem claim_C5_cex :
    (errDisabledTick true .err true ∅).raised = true
    ∧ (bannedTick true .err true ∅).raised = true := by
  exact ⟨rfl, rfl⟩

/-- Counterexample to C6 as stated: two rows with the same username whose
`session_duration` strings differ only by trailing whitespace produce the
same composite key, because `_err_disabled_key` strips the duration. -/
theorem claim_C6_cex :
    (ErrRow.mk "a" 1 2 "x").username = (ErrRow.mk "a" 1 2 "x ").username
    ∧ (ErrRow.mk "a" 1 2 "x").sessionDuration
      ≠ (ErrRow.mk "a" 1 2 "x ").sessionDuration
    ∧ errDisabledKey (ErrRow.mk "a" 1 2 "x")
      = errDisabledKey (ErrRow.mk "a" 1 2 "x ") := by
  refine ⟨rfl, ?_, ?_⟩ <;> decide

/-! ### Store behaviour of successful ticks -/

/-- After a successful fetch the `err_disabled` job always persists the
current composite-key set, whatever the sink does: `save_json` runs before
the notification is attempted, and when the store already equals the
current set it is left alone (which is the same set). -/
lemma errDisabledTick_ok_store (rows : List ErrRow) (sinkOk : Bool)
    (s : Finset String) :
    (errDisabledTick true (.ok rows) sinkOk s).store
      = errDisabledCurrent rows := by
  simp only [errDisabledTick]
  split_ifs with h1 h2 h3 <;> simp_all

/-- Same fact for the `banned_usernames` job. -/
lemma bannedTick_ok_store (rows : List String) (sinkOk : Bool)
    (s : Finset String) :
    (bannedTick true (.ok rows) sinkOk s).store = bannedCurrent rows := by
  simp only [bannedTick]
  split_ifs with h1 h2 h3 <;> simp_all

/-- When a rotom tick returns without raising, the store holds the current
offline set. -/
lemma rotomTick_no_raise_store (drows : List DeviceRow) (sinkOk : Bool)
    (s : Finset String) (nowMs thrS : Int)
    (h : (rotomTick true nowMs thrS (.ok drows) sinkOk s).raised = false) :
    (rotomTick true nowMs thrS (.ok drows) sinkOk s).store
      = currentOffline nowMs (thrS * 1000) (buildLastSeen drows) := by
  simp only [rotomTick] at h ⊢
  split_ifs at h ⊢ <;> simp_all

/-! ### Claim C2 (amended): the store self-heals on every completed tick -/

/-- C2 amended: after a tick whose fetch succeeds, a subsequent load of the
watcher's key returns exactly the current set — unconditionally for the two
account watchers (they persist before notifying), and for the rotom watcher
provided the tick did not raise (its `save_json` runs after the
notification sends, so a sink failure leaves the previous snapshot in
place; see the counterexample). -/
theorem claim_C2_self_healing (rows : List ErrRow) (us : List String)
    (drows : List DeviceRow) (sinkOk : Bool) (s1 s2 s3 : Finset String)
    (nowMs thrS : Int) :
    (errDisabledTick true (.ok rows) sinkOk s1).store
      = errDisabledCurrent rows
    ∧ (bannedTick true (.ok us) sinkOk s2).store = bannedCurrent us
    ∧ ((rotomTick true nowMs thrS (.ok drows) sinkOk s3).raised = false →
        (rotomTick true nowMs thrS (.ok drows) sinkOk s3).store
          = currentOffline nowMs (thrS * 1000) (buildLastSeen drows)) :=
  ⟨errDisabledTick_ok_store rows sinkOk s1,
   bannedTick_ok_store us sinkOk s2,
   fun h => rotomTick_no_raise_store drows sinkOk s3 nowMs thrS h⟩

/-- Concrete instance of C2 amended: an `err_disabled` tick that purges a
stale key, and a clean rotom tick persisting its (empty) offline set. -/
theorem claim_C2_witness :
    (errDisabledTick true (.ok []) true {"stale"}).store
      = errDisabledCurrent []
    ∧ ((rotomTick true 0 1 (.ok []) true (∅ : Finset String)).raised = false
        ∧ (rotomTick true 0 1 (.ok []) true ∅).store
          = currentOffline 0 (1 * 1000) (buildLastSeen [])) :=
  ⟨(claim_C2_self_healing [] [] [] true {"stale"} ∅ ∅ 0 1).1,
   by decide,
   (claim_C2_self_healing [] [] [] true ∅ ∅ ∅ 0 1).2.2 (by decide)⟩

/-! ### Claim C4 (amended): persistence versus sink failure -/

/-- C4 amended: for the account watchers a notification-sink failure never
prevents the snapshot write — the store holds the new current set even when
the send raises.  For the rotom watcher the write happens only after the
sends, so on a tick with a non-empty delta and a failing sink the job
raises and the store keeps the previous snapshot (see the counterexample).
-/
theorem claim_C4_sink_failure (rows : List ErrRow) (us : List String)
    (drows : List DeviceRow) (s1 s2 s3 : Finset String) (nowMs thrS : Int)
    (hdelta :
      currentOffline nowMs (thrS * 1000) (buildLastSeen drows) \ s3 ≠ ∅
      ∨ s3 \ currentOffline nowMs (thrS * 1000) (buildLastSeen drows) ≠ ∅) :
    (errDisabledTick true (.ok rows) false s1).store
      = errDisabledCurrent rows
    ∧ (bannedTick true (.ok us) false s2).store = bannedCurrent us
    ∧ (rotomTick true nowMs thrS (.ok drows) false s3).store = s3
    ∧ (rotomTick true nowMs thrS (.ok drows) false s3).raised = true := by
  refine ⟨errDisabledTick_ok_store rows false s1,
    bannedTick_ok_store us false s2, ?_, ?_⟩ <;>
  · simp only [rotomTick]
    split_ifs with h1 h2 <;> simp_all

/-- Concrete instance of C4 amended: sink down, device `d` newly offline —
the account watcher still persists, the rotom watcher keeps the old store.
-/
theorem claim_C4_witness :
    (currentOffline 2000 (1 * 1000) (buildLastSeen [⟨"d", some 0⟩])
        \ (∅ : Finset String) ≠ ∅
      ∨ (∅ : Finset String)
        \ currentOffline 2000 (1 * 1000) (buildLastSeen [⟨"d", some 0⟩]) ≠ ∅)
    ∧ (rotomTick true 2000 1 (.ok [⟨"d", some 0⟩]) false ∅).store = ∅ :=
  ⟨Or.inl (by decide),
   (claim_C4_sink_failure [] [] [⟨"d", some 0⟩] ∅ ∅ ∅ 2000 1
      (Or.inl (by decide))).2.2.1⟩

/-! ### Claim C5 (amended): who catches what -/

/-- C5 amended: the watcher job bodies are not exception barriers — a fetch
failure raises out of both account watcher ticks, and only the rotom
watcher catches its fetch failure internally; it is the scheduler's
per-job loop that catches any non-cancellation exception from a tick and
proceeds, cancellation alone ending the loop. -/
theorem claim_C5_exception_discipline (nowMs thrS : Int) (sinkOk : Bool)
    (s : Finset String) (code : Nat) (rest : List Round) :
    (rotomTick true nowMs thrS .err sinkOk s).raised = false
    ∧ (errDisabledTick true .err sinkOk s).raised = true
    ∧ (bannedTick true .err sinkOk s).raised = true
    ∧ runLoop ({ stopSet := false, outcome := .exc code } :: rest)
      = ((runLoop rest).1 + 1, (runLoop rest).2)
    ∧ runLoop ({ stopSet := false, outcome := .cancelled } :: rest)
      = (1, .cancelledEnd) := by
  refine ⟨?_, rfl, rfl, ?_, ?_⟩ <;> simp [rotomTick, runLoop]

/-! ### Claim C10: the offline classification -/

/-- Dict assignment leaves the key list unchanged when the key is present.
-/
lemma dictSet_keys (m : List (String × Int)) (k : String) (v : Int)
    (h : m.any (fun p => decide (p.1 = k)) = true) :
    (dictSet m k v).map Prod.fst = m.map Prod.fst := by
  simp only [dictSet, if_pos h, List.map_map]
  apply List.map_congr_left
  intro p _
  by_cases hp : p.1 = k <;> simp [hp]

/-- Dict assignment preserves distinctness of keys. -/
lemma dictSet_nodup (m : List (String × Int)) (k : String) (v : Int)
    (h : (m.map Prod.fst).Nodup) : ((dictSet m k v).map Prod.fst).Nodup := by
  by_cases hmem : m.any (fun p => decide (p.1 = k)) = true
  · rw [dictSet_keys m k v hmem]; exact h
  · have hk : k ∉ m.map Prod.fst := by
      intro hcon
      apply hmem
      rw [List.any_eq_true]
      obtain ⟨p, hp, hpk⟩ := List.mem_map.mp hcon
      exact ⟨p, hp, by simp [hpk]⟩
    simp only [dictSet, if_neg hmem, List.map_append]
    simp [List.nodup_append, h, hk]

/-- The `last_seen` dict built by the rotom job has distinct keys. -/
lemma buildLastSeen_nodup (rows : List DeviceRow) :
    ((buildLastSeen rows).map Prod.fst).Nodup := by
  have general :
      ∀ (rs : List DeviceRow) (m : List (String × Int)),
        (m.map Prod.fst).Nodup →
        ((rs.foldl
            (fun m r =>
              if r.deviceId = "" then m
              else dictSet m (pyStrip r.deviceId) (r.lastTs.getD 0)) m).map
          Prod.fst).Nodup := by
    intro rs
    induction rs with
    | nil => intro m hm; simpa using hm
    | cons r rest ih =>
      intro m hm
      simp only [List.foldl_cons]
      by_cases hid : r.deviceId = ""
      · simp only [if_pos hid]; exact ih m hm
      · simp only [if_neg hid]
        exact ih _ (dictSet_nodup m _ _ hm)
  exact general rows [] (by simp)

/-- In a list with distinct keys, two entries sharing a key coincide. -/
lemma nodup_keys_eq {m : List (String × Int)}
    (h : (m.map Prod.fst).Nodup) {p q : String × Int}
    (hp : p ∈ m) (hq : q ∈ m) (hk : p.1 = q.1) : p = q := by
  induction m with
  | nil => cases hp
  | cons x xs ih =>
    simp only [List.map_cons, List.nodup_cons] at h
    rcases List.mem_cons.mp hp with hpx | hpxs <;>
      rcases List.mem_cons.mp hq with hqx | hqxs
    · rw [hpx, hqx]
    · exfalso
      apply h.1
      have hx : x.1 = q.1 := by rw [← hpx]; exact hk
      rw [hx]
      exact List.mem_map_of_mem Prod.fst hqxs
    · exfalso
      apply h.1
      have hx : x.1 = p.1 := by rw [← hqx]; exact hk.symm
      rw [hx]
      exact List.mem_map_of_mem Prod.fst hpxs
    · exact ih h.2 hpxs hqxs

/-- C10: a device in the rotom job's normalised `last_seen` map is
classified offline exactly when its effective timestamp is non-positive or
older than the threshold; a missing timestamp normalises to `0`, which is
always classified offline — never silently treated as online. -/
theorem claim_C10_offline_iff (nowMs thrS : Int) (rows : List DeviceRow)
    (dev : String) (ts : Int)
    (h : lookupTs (buildLastSeen rows) dev = some ts) :
    (dev ∈ currentOffline nowMs (thrS * 1000) (buildLastSeen rows)
      ↔ (ts ≤ 0 ∨ nowMs - ts > thrS * 1000))
    ∧ (none : Option Int).getD 0 = 0
    ∧ (∀ now thr : Int, isOffline now thr 0 = true) := by
  refine ⟨?_, rfl, fun now thr => by simp [isOffline]⟩
  simp only [lookupTs, Option.map_eq_some'] at h
  obtain ⟨p, hfind, hts⟩ := h
  have hpdev : p.1 = dev := by
    have := List.find?_some hfind
    simpa using this
  have hpmem : p ∈ buildLastSeen rows := List.mem_of_find?_eq_some hfind
  have hnodup := buildLastSeen_nodup rows
  constructor
  · intro hmem
    simp only [currentOffline, List.mem_toFinset, List.mem_map,
      List.mem_filter] at hmem
    obtain ⟨q, ⟨hqmem, hqoff⟩, hqdev⟩ := hmem
    have : q = p := nodup_keys_eq hnodup hqmem hpmem (by rw [hqdev, hpdev])
    rw [this, hts] at hqoff
    simpa [isOffline, decide_eq_true_eq] using hqoff
  · intro hoff
    simp only [currentOffline, List.mem_toFinset, List.mem_map,
      List.mem_filter]
    refine ⟨p, ⟨hpmem, ?_⟩, hpdev⟩
    rw [hts]
    simpa [isOffline, decide_eq_true_eq] using hoff

/-- Concrete instance of C10: a device whose row lacks a timestamp
(normalised to `0`) is in the offline set. -/
theorem claim_C10_witness :
    lookupTs (buildLastSeen [⟨"d", none⟩]) "d" = some 0
    ∧ ("d" ∈ currentOffline 5 (1 * 1000) (buildLastSeen [⟨"d", none⟩])
        ↔ ((0 : Int) ≤ 0 ∨ (5 : Int) - 0 > 1 * 1000)) :=
  ⟨by decide,
   (claim_C10_offline_iff 5 1 [⟨"d", none⟩] "d" 0 (by decide)).1⟩

/-! ### Claim C6: sensitivity of the composite key

The composite key interleaves its four fields with `|`.  The decimal text
of an integer contains neither `|` nor (beyond a leading sign) any
non-digit, so the key determines the two counters and the stripped
duration once the username is fixed.  We relate Lean's `toString : Int →
String` (same decimal text as Python's `str`) to a fuel-free rendering
`natDecimal` that is convenient to reason about. -/

/-- Numeric value of a decimal digit character. -/
def digitVal (c : Char) : Nat := c.toNat - 48

lemma digitChar_facts {m : Nat} (h : m < 10) :
    Nat.digitChar m ≠ '|' ∧ Nat.digitChar m ≠ '-'
    ∧ digitVal (Nat.digitChar m) = m := by
  interval_cases m <;> exact ⟨by decide, by decide, by decide⟩

/-- Decimal digit list of a natural number, most significant digit first.
-/
def natDecimal (n : Nat) : List Char :=
  if h : n < 10 then [Nat.digitChar n]
  else natDecimal (n / 10) ++ [Nat.digitChar (n % 10)]
termination_by n
decreasing_by exact Nat.div_lt_self (by omega) (by omega)

lemma natDecimal_chars (n : Nat) :
    ∀ c ∈ natDecimal n, c ≠ '|' ∧ c ≠ '-' := by
  induction n using Nat.strong_induction_on with
  | _ n ih =>
    rw [natDecimal]
    by_cases h : n < 10
    · simp only [dif_pos h]
      intro c hc
      simp only [List.mem_singleton] at hc
      subst hc
      exact ⟨(digitChar_facts h).1, (digitChar_facts h).2.1⟩
    · simp only [dif_neg h]
      intro c hc
      rcases List.mem_append.mp hc with h1 | h2
      · exact ih (n / 10) (Nat.div_lt_self (by omega) (by omega)) c h1
      · simp only [List.mem_singleton] at h2
        subst h2
        have hm : n % 10 < 10 := Nat.mod_lt _ (by omega)
        exact ⟨(digitChar_facts hm).1, (digitChar_facts hm).2.1⟩

/-- Value of a digit list read back as a decimal numeral. -/
def evalDecimal (l : List Char) : Nat :=
  l.foldl (fun a c => 10 * a + digitVal c) 0

lemma evalDecimal_append (l : List Char) (c : Char) :
    evalDecimal (l ++ [c]) = 10 * evalDecimal l + digitVal c := by
  simp [evalDecimal, List.foldl_append]

lemma evalDecimal_natDecimal (n : Nat) : evalDecimal (natDecimal n) = n := by
  induction n using Nat.strong_induction_on with
  | _ n ih =>
    rw [natDecimal]
    by_cases h : n < 10
    · simp only [dif_pos h]
      simp [evalDecimal, (digitChar_facts h).2.2]
    · simp only [dif_neg h]
      rw [evalDecimal_append,
        ih (n / 10) (Nat.div_lt_self (by omega) (by omega))]
      have hm : n % 10 < 10 := Nat.mod_lt _ (by omega)
      rw [(digitChar_facts hm).2.2]
      omega

lemma natDecimal_inj {a b : Nat} (h : natDecimal a = natDecimal b) :
    a = b := by
  rw [← evalDecimal_natDecimal a, ← evalDecimal_natDecimal b, h]

/-- Core's fuelled digit renderer agrees with `natDecimal` once the fuel
covers the input. -/
lemma toDigitsCore_eq (fuel : Nat) :
    ∀ (n : Nat) (ds : List Char), n < fuel →
      Nat.toDigitsCore 10 fuel n ds = natDecimal n ++ ds := by
  induction fuel with
  | zero => intro n ds h; omega
  | succ f ih =>
    intro n ds h
    rw [Nat.toDigitsCore]
    by_cases h10 : n / 10 = 0
    · have hn : n < 10 := by omega
      simp only [h10, if_pos]
      rw [natDecimal]
      simp [dif_pos hn, Nat.mod_eq_of_lt hn]
    · have hge : ¬ n < 10 := by omega
      simp only [h10, if_neg, if_false]
      rw [ih (n / 10) (Nat.digitChar (n % 10) :: ds) (by omega)]
      conv_rhs => rw [natDecimal]
      simp [dif_neg hge, List.append_assoc]

lemma natRepr_eq (n : Nat) : Nat.repr n = String.mk (natDecimal n) := by
  have h := toDigitsCore_eq (n + 1) n [] (by omega)
  rw [Nat.repr, Nat.toDigits, h]
  simp [List.asString]

lemma natRepr_chars (n : Nat) :
    ∀ c ∈ (Nat.repr n).data, c ≠ '|' ∧ c ≠ '-' := by
  rw [natRepr_eq]
  exact natDecimal_chars n

lemma intStr_ofNat (m : Nat) : toString (Int.ofNat m) = Nat.repr m := rfl

lemma intStr_negSucc (m : Nat) :
    toString (Int.negSucc m) = "-" ++ Nat.repr (m + 1) := rfl

/-- The decimal text of an integer never contains the separator `|`. -/
lemma intStr_no_bar (i : Int) : '|' ∉ (toString i).data := by
  cases i with
  | ofNat m =>
    rw [intStr_ofNat]
    intro hc
    exact (natRepr_chars m '|' hc).1 rfl
  | negSucc m =>
    rw [intStr_negSucc]
    intro hc
    rw [String.data_append] at hc
    rcases List.mem_append.mp hc with h1 | h2
    · simp only [show ("-" : String).data = ['-'] from rfl,
        List.mem_singleton] at h1
      exact absurd h1 (by decide)
    · exact (natRepr_chars (m + 1) '|' h2).1 rfl

/-- Python renders distinct integers as distinct decimal strings. -/
lemma intStr_inj {i j : Int} (h : toString i = toString j) : i = j := by
  cases i with
  | ofNat m =>
    cases j with
    | ofNat k =>
      rw [intStr_ofNat, intStr_ofNat, natRepr_eq, natRepr_eq] at h
      injection h with h
      exact congrArg Int.ofNat (natDecimal_inj h)
    | negSucc k =>
      exfalso
      rw [intStr_ofNat, intStr_negSucc] at h
      have hd := congrArg String.data h
      rw [natRepr_eq, String.data_append, natRepr_eq] at hd
      have hm : '-' ∈ natDecimal m := by
        show '-' ∈ (String.mk (natDecimal m)).data
        rw [hd]
        simp [show ("-" : String).data = ['-'] from rfl]
      exact (natDecimal_chars m '-' hm).2 rfl
  | negSucc m =>
    cases j with
    | ofNat k =>
      exfalso
      rw [intStr_negSucc, intStr_ofNat] at h
      have hd := congrArg String.data h
      rw [natRepr_eq, String.data_append, natRepr_eq] at hd
      have hm : '-' ∈ natDecimal k := by
        show '-' ∈ (String.mk (natDecimal k)).data
        rw [← hd]
        simp [show ("-" : String).data = ['-'] from rfl]
      exact (natDecimal_chars k '-' hm).2 rfl
    | negSucc k =>
      rw [intStr_negSucc, intStr_negSucc] at h
      have hd := congrArg String.data h
      rw [String.data_append, String.data_append, natRepr_eq, natRepr_eq]
        at hd
      simp only [show ("-" : String).data = ['-'] from rfl,
        List.singleton_append, List.cons.injEq, true_and] at hd
      have hmk := natDecimal_inj hd
      exact congrArg Int.negSucc (by omega)

/-- Splitting a `|`-separated concatenation is unambiguous when the left
parts are `|`-free. -/
lemma bar_split {a1 a2 t1 t2 : List Char} (h1 : '|' ∉ a1) (h2 : '|' ∉ a2)
    (h : a1 ++ '|' :: t1 = a2 ++ '|' :: t2) : a1 = a2 ∧ t1 = t2 := by
  induction a1 generalizing a2 with
  | nil =>
    cases a2 with
    | nil => simpa using h
    | cons d ds =>
      exfalso
      simp only [List.nil_append, List.cons_append, List.cons.injEq] at h
      apply h2
      rw [h.1]
      exact List.mem_cons_self d ds
  | cons c cs ih =>
    cases a2 with
    | nil =>
      exfalso
      simp only [List.cons_append, List.nil_append, List.cons.injEq] at h
      apply h1
      rw [← h.1]
      exact List.mem_cons_self c cs
    | cons d ds =>
      simp only [List.cons_append, List.cons.injEq] at h
      obtain ⟨hcd, hrest⟩ := h
      have h1' : '|' ∉ cs := fun hm => h1 (List.mem_cons_of_mem c hm)
      have h2' : '|' ∉ ds := fun hm => h2 (List.mem_cons_of_mem d hm)
      obtain ⟨ha, ht⟩ := ih h1' h2' hrest
      exact ⟨by rw [hcd, ha], ht⟩

/-- Character decomposition of the composite key. -/
lemma key_data (r : ErrRow) :
    (errDisabledKey r).data
      = (pyStrip r.username).data
        ++ '|' :: ((toString r.encounter).data
        ++ '|' :: ((toString r.gmo).data
        ++ '|' :: (pyStrip r.sessionDuration).data)) := by
  simp [errDisabledKey, String.data_append,
    show ("|" : String).data = ['|'] from rfl, List.append_assoc]

/-- C6 amended: two rows with the same username that differ in the
encounter count, the GMO count, or the whitespace-stripped session-duration
string produce different composite keys, so with the previous snapshot
holding the old key the changed row's key is classified as newly added.
(As stated over raw duration strings the claim fails: stripping identifies
strings differing only in surrounding whitespace — see the
counterexample.) -/
theorem claim_C6_composite_sensitivity (r1 r2 : ErrRow)
    (hu : r1.username = r2.username)
    (hdiff : r1.encounter ≠ r2.encounter ∨ r1.gmo ≠ r2.gmo
      ∨ pyStrip r1.sessionDuration ≠ pyStrip r2.sessionDuration) :
    errDisabledKey r1 ≠ errDisabledKey r2
    ∧ errDisabledKey r1
      ∈ errDisabledCurrent [r1] \ ({errDisabledKey r2} : Finset String) := by
  have hne : errDisabledKey r1 ≠ errDisabledKey r2 := by
    intro hk
    have hd := congrArg String.data hk
    rw [key_data, key_data, hu] at hd
    have h1 := List.append_cancel_left hd
    simp only [List.cons.injEq, true_and] at h1
    obtain ⟨he, h2⟩ := bar_split (intStr_no_bar r1.encounter)
      (intStr_no_bar r2.encounter) h1
    obtain ⟨hg, h3⟩ := bar_split (intStr_no_bar r1.gmo)
      (intStr_no_bar r2.gmo) h2
    rcases hdiff with hx | hx | hx
    · exact hx (intStr_inj (String.ext he))
    · exact hx (intStr_inj (String.ext hg))
    · exact hx (String.ext h3)
  refine ⟨hne, ?_⟩
  rw [Finset.mem_sdiff]
  constructor
  · simp [errDisabledCurrent]
  · simp only [Finset.mem_singleton]
    exact hne

/-- Concrete instance of C6 amended: same username, encounter count changed
from 1 to 3 — the composite keys differ. -/
theorem claim_C6_witness :
    ((ErrRow.mk "a" 1 2 "x").encounter ≠ (ErrRow.mk "a" 3 2 "x").encounter)
    ∧ errDisabledKey (ErrRow.mk "a" 1 2 "x")
      ≠ errDisabledKey (ErrRow.mk "a" 3 2 "x") :=
  ⟨by decide,
   (claim_C6_composite_sensitivity (ErrRow.mk "a" 1 2 "x")
      (ErrRow.mk "a" 3 2 "x") rfl (Or.inl (by decide))).1⟩

end Pulse
